import Mathlib

/-!
# Verification of the DMR5G tile-catalog spatial-query engine

Shallow embedding of `src/cuzk_tools/dmr5g.py` (class `Dmr5gParser` and
helpers).  Coordinates are modelled as exact rationals `ℚ`; Python float
arithmetic on the catalog's grid-aligned values is exact, and the Python
float `%` operator on a positive modulus has floor semantics, modelled by
`fmod` below.  External capabilities (the pyproj coordinate transform, the
rtree index queries, the network) enter as parameters of the embedded
functions, exactly where the source calls them.
-/

namespace Dmr5g

/-- A planar or geodetic point, as a coordinate pair.  The catalog stores
geodetic vertices as (lat, lon) pairs. -/
abbrev Pt : Type := ℚ × ℚ

/-- A polygon as the ordered list of its exterior-ring coordinates.
Shapely rings are closed: the first vertex is repeated at the end, and all
concrete polygons in this development follow that convention. -/
abbrev Poly : Type := List Pt

/-- Python/numpy `a % S` for a positive modulus `S`: floor-mod semantics,
`a - S*⌊a/S⌋`. -/
def fmod (a S : ℚ) : ℚ := a - S * (⌊a / S⌋ : ℤ)

/-- The x-axis snap of `fix_tile_coords` (dmr5g.py lines 203-206):
`x_mask = x%2500 < 1250`; masked entries get `x - x%2500`, the rest get
`x + (2500 - x%2500)`. -/
def fix_x (x : ℚ) : ℚ :=
  if fmod x 2500 < 1250 then x - fmod x 2500 else x + (2500 - fmod x 2500)

/-- The y-axis snap of `fix_tile_coords` (dmr5g.py lines 208-211), with
grid step 2000 and threshold 1000. -/
def fix_y (y : ℚ) : ℚ :=
  if fmod y 2000 < 1000 then y - fmod y 2000 else y + (2000 - fmod y 2000)

/-- `Dmr5gParser.fix_tile_coords` (dmr5g.py lines 197-213): split the ring
into its x and y coordinate arrays, snap each array elementwise, zip the
results back into a polygon. -/
def fix_tile_coords (tile : Poly) : Poly :=
  let x := tile.map Prod.fst
  let y := tile.map Prod.snd
  let x_fixed := x.map fix_x
  let y_fixed := y.map fix_y
  x_fixed.zip y_fixed

/-- The per-vertex snap as the spec words it: with grid step `S`, let
`r = coordinate mod S`; replace the coordinate by `coordinate - r` when
`r < S/2` and by `coordinate + (S - r)` otherwise. -/
def snapSpec (S c : ℚ) : ℚ :=
  if fmod c S < S / 2 then c - fmod c S else c + (S - fmod c S)

theorem fix_tile_coords_eq_map (tile : Poly) :
    fix_tile_coords tile = tile.map (fun p => (fix_x p.1, fix_y p.2)) := by
  simp [fix_tile_coords, List.zip_map']

theorem fix_x_eq_snapSpec (x : ℚ) : fix_x x = snapSpec 2500 x := by
  have h : (2500 : ℚ) / 2 = 1250 := by norm_num
  simp [fix_x, snapSpec, h]

theorem fix_y_eq_snapSpec (y : ℚ) : fix_y y = snapSpec 2000 y := by
  have h : (2000 : ℚ) / 2 = 1000 := by norm_num
  simp [fix_y, snapSpec, h]

theorem fmod_intMul (S : ℚ) (k : ℤ) (hS : S ≠ 0) : fmod (S * k) S = 0 := by
  have h : S * (k : ℚ) / S = (k : ℚ) := by
    rw [mul_comm, mul_div_assoc, div_self hS, mul_one]
  simp [fmod, h]

theorem fix_x_int_multiple (x : ℚ) : ∃ k : ℤ, fix_x x = 2500 * k := by
  by_cases h : fmod x 2500 < 1250
  · refine ⟨⌊x / 2500⌋, ?_⟩
    rw [fix_x, if_pos h, fmod]
    ring
  · refine ⟨⌊x / 2500⌋ + 1, ?_⟩
    rw [fix_x, if_neg h, fmod]
    push_cast
    ring

theorem fix_y_int_multiple (y : ℚ) : ∃ k : ℤ, fix_y y = 2000 * k := by
  by_cases h : fmod y 2000 < 1000
  · refine ⟨⌊y / 2000⌋, ?_⟩
    rw [fix_y, if_pos h, fmod]
    ring
  · refine ⟨⌊y / 2000⌋ + 1, ?_⟩
    rw [fix_y, if_neg h, fmod]
    push_cast
    ring

theorem fix_x_of_multiple (k : ℤ) : fix_x (2500 * k) = 2500 * k := by
  have hm : fmod ((2500 : ℚ) * k) 2500 = 0 := fmod_intMul 2500 k (by norm_num)
  rw [fix_x, hm]
  norm_num

theorem fix_y_of_multiple (k : ℤ) : fix_y (2000 * k) = 2000 * k := by
  have hm : fmod ((2000 : ℚ) * k) 2000 = 0 := fmod_intMul 2000 k (by norm_num)
  rw [fix_y, hm]
  norm_num

theorem fix_x_fixed (x : ℚ) : fix_x (fix_x x) = fix_x x := by
  obtain ⟨k, hk⟩ := fix_x_int_multiple x
  rw [hk]
  exact fix_x_of_multiple k

theorem fix_y_fixed (y : ℚ) : fix_y (fix_y y) = fix_y y := by
  obtain ⟨k, hk⟩ := fix_y_int_multiple y
  rw [hk]
  exact fix_y_of_multiple k

theorem fix_tile_coords_of_grid (P : Poly)
    (h : ∀ p ∈ P, (∃ k : ℤ, p.1 = 2500 * k) ∧ ∃ m : ℤ, p.2 = 2000 * m) :
    fix_tile_coords P = P := by
  rw [fix_tile_coords_eq_map]
  apply List.ext_getElem (by simp)
  intro i h1 h2
  simp only [List.getElem_map]
  have hp := h P[i] (List.getElem_mem h2)
  obtain ⟨⟨k, hk⟩, m, hm⟩ := hp
  rw [Prod.ext_iff]
  constructor
  · simpa [hk] using fix_x_of_multiple k
  · simpa [hm] using fix_y_of_multiple m

/-- C3: `fix_tile_coords` maps each vertex independently per axis with grid
steps 2500 (x) and 2000 (y): with `r = coordinate mod S`, the coordinate
becomes `coordinate - r` when `r < S/2` and `coordinate + (S - r)`
otherwise, identically at every vertex; vertex count and order are
preserved. -/
theorem fix_tile_coords_pointwise (tile : Poly) :
    (fix_tile_coords tile).length = tile.length ∧
    ∀ i : ℕ, i < tile.length →
      (fix_tile_coords tile).getD i (0, 0) =
        (snapSpec 2500 (tile.getD i (0, 0)).1, snapSpec 2000 (tile.getD i (0, 0)).2) := by
  rw [fix_tile_coords_eq_map]
  constructor
  · simp
  · intro i hi
    rw [List.getD_eq_getElem _ _ (by simpa using hi), List.getD_eq_getElem _ _ hi]
    simp [fix_x_eq_snapSpec, fix_y_eq_snapSpec]

/-- Witness for `fix_tile_coords_pointwise` at a concrete one-vertex polygon. -/
theorem fix_tile_coords_pointwise_witness :
    (fix_tile_coords [(2600, 900)]).getD 0 (0, 0) =
      (snapSpec 2500 (((2600 : ℚ), (900 : ℚ)) : Pt).1, snapSpec 2000 (((2600 : ℚ), (900 : ℚ)) : Pt).2) := by
  have h := (fix_tile_coords_pointwise [(2600, 900)]).2 0 (by norm_num)
  simpa using h

/-- C4: the normalizer is idempotent, and a polygon whose every vertex
already lies on the 2500 × 2000 grid is returned unchanged. -/
theorem fix_tile_coords_idempotent (P : Poly) :
    fix_tile_coords (fix_tile_coords P) = fix_tile_coords P ∧
    ((∀ p ∈ P, (∃ k : ℤ, p.1 = 2500 * k) ∧ ∃ m : ℤ, p.2 = 2000 * m) →
      fix_tile_coords P = P) := by
  constructor
  · rw [fix_tile_coords_eq_map, fix_tile_coords_eq_map, List.map_map]
    refine List.map_congr_left ?_
    intro p _
    simp [Function.comp, fix_x_fixed, fix_y_fixed]
  · exact fix_tile_coords_of_grid P

/-- Witness for `fix_tile_coords_idempotent`: a concrete on-grid square is
unchanged. -/
theorem fix_tile_coords_idempotent_witness :
    fix_tile_coords [((0 : ℚ), (0 : ℚ)), (2500, 0), (2500, 2000), (0, 2000), (0, 0)] =
      [((0 : ℚ), (0 : ℚ)), (2500, 0), (2500, 2000), (0, 2000), (0, 0)] := by
  refine (fix_tile_coords_idempotent _).2 ?_
  rintro p hp
  simp only [List.mem_cons, List.not_mem_nil, or_false] at hp
  rcases hp with h | h | h | h | h <;> subst h
  · exact ⟨⟨0, by norm_num⟩, ⟨0, by norm_num⟩⟩
  · exact ⟨⟨1, by norm_num⟩, ⟨0, by norm_num⟩⟩
  · exact ⟨⟨1, by norm_num⟩, ⟨1, by norm_num⟩⟩
  · exact ⟨⟨0, by norm_num⟩, ⟨1, by norm_num⟩⟩
  · exact ⟨⟨0, by norm_num⟩, ⟨0, by norm_num⟩⟩

/-- The edges of a closed ring: consecutive vertex pairs.  The rings this
development works with repeat their first vertex at the end, so zipping the
ring with its tail enumerates every boundary segment. -/
def edges (p : Poly) : List (Pt × Pt) := p.zip p.tail

/-- `q` lies on the closed segment from `a` to `b`: collinear and within
both coordinate ranges. -/
def onSegment (a b q : Pt) : Bool :=
  decide ((b.1 - a.1) * (q.2 - a.2) = (b.2 - a.2) * (q.1 - a.1)) &&
  decide (min a.1 b.1 ≤ q.1) && decide (q.1 ≤ max a.1 b.1) &&
  decide (min a.2 b.2 ≤ q.2) && decide (q.2 ≤ max a.2 b.2)

/-- `q` lies on the boundary of the ring. -/
def onBoundary (poly : Poly) (q : Pt) : Bool :=
  (edges poly).any fun e => onSegment e.1 e.2 q

/-- The horizontal ray from `q` to the right crosses edge `e` (standard
even-odd crossing test, exact over `ℚ`). -/
def crossesRay (q : Pt) (e : Pt × Pt) : Bool :=
  (decide (q.2 < e.1.2) != decide (q.2 < e.2.2)) &&
  decide (q.1 < e.1.1 + (e.2.1 - e.1.1) * (q.2 - e.1.2) / (e.2.2 - e.1.2))

/-- Model of the external shapely `Polygon.contains(Point)` predicate used
by `get_tile_id` (dmr5g.py lines 227 and 240): true iff the point lies in
the interior of the simple closed ring.  Shapely containment is strict: a
point on the boundary is not contained.  Interior membership is the
even-odd crossing parity. -/
def containsPoint (poly : Poly) (q : Pt) : Bool :=
  !onBoundary poly q && ((edges poly).countP (crossesRay q)) % 2 == 1

/-- The distinguishable failures of the parser's lookup and resolution
functions: `indexError` is `get_tile`'s IndexError (dmr5g.py line 193);
the other three are the `PointOutOfTileError`s of `get_tile_id` with, in
order, the messages of lines 245, 241 and 232. -/
inductive DmrError
  | indexError
  | noTileFound
  | singleTileNotContaining
  | noTileContains
deriving DecidableEq

/-- The parsed-catalog state of `Dmr5gParser`: the entry count `n`
(dmr5g.py line 104) and the reported footprint list `tile_polygons`
(line 106).  By construction the list has length `n`. -/
structure Dmr5gParser where
  n : ℕ
  tile_polygons : List Poly

/-- `Dmr5gParser.get_tile` (dmr5g.py lines 191-195): raise IndexError when
`id >= n`, else return the id-th reported polygon. -/
def get_tile (P : Dmr5gParser) (id : ℕ) : Except DmrError Poly :=
  if P.n ≤ id then Except.error DmrError.indexError
  else Except.ok (P.tile_polygons.getD id [])

/-- The per-vertex application of the external pyproj transform `T`, as in
`WGS_TO_SJTSK.transform(tile[:,0], tile[:,1])` (dmr5g.py line 224). -/
def transformPoly (T : Pt → Pt) (tile : Poly) : Poly := tile.map T

/-- `tile_sjtsk_fixed` as computed at dmr5g.py lines 224-225 and 237-238:
transform the reported footprint to the planar system, then normalize. -/
def tile_sjtsk_fixed (T : Pt → Pt) (tile : Poly) : Poly :=
  fix_tile_coords (transformPoly T tile)

/-- The loop of `get_tile_id` for multiple candidates (dmr5g.py lines
222-232): test candidates in order, return the first whose normalized
footprint contains the point, raise when none does. -/
def firstContaining (P : Dmr5gParser) (T : Pt → Pt) (q : Pt) : List ℕ → Except DmrError ℕ
  | [] => Except.error DmrError.noTileContains
  | id :: rest =>
    match get_tile P id with
    | Except.error e => Except.error e
    | Except.ok tile =>
      if containsPoint (tile_sjtsk_fixed T tile) q then Except.ok id
      else firstContaining P T q rest

/-- `Dmr5gParser.get_tile_id` (dmr5g.py lines 215-245).  The candidate ids
come from the rtree intersection query (external), passed here as `ids`;
the query point is transformed by `T` with swapped components, as in
`WGS_TO_SJTSK.transform(point[1], point[0])` (line 218). -/
def get_tile_id (P : Dmr5gParser) (T : Pt → Pt) (ids : List ℕ) (point : Pt) :
    Except DmrError ℕ :=
  let point_sjtsk := T (point.2, point.1)
  match ids with
  | [] => Except.error DmrError.noTileFound
  | [id] =>
    match get_tile P id with
    | Except.error e => Except.error e
    | Except.ok tile =>
      if containsPoint (tile_sjtsk_fixed T tile) point_sjtsk then Except.ok id
      else Except.error DmrError.singleTileNotContaining
  | _ :: _ :: _ => firstContaining P T point_sjtsk ids

/-- The containment verdict `get_tile_id` computes for candidate `id` at
planar point `q`. -/
def contains_of (P : Dmr5gParser) (T : Pt → Pt) (q : Pt) (id : ℕ) : Bool :=
  containsPoint (tile_sjtsk_fixed T (P.tile_polygons.getD id [])) q

theorem get_tile_of_lt (P : Dmr5gParser) (id : ℕ) (h : id < P.n) :
    get_tile P id = Except.ok (P.tile_polygons.getD id []) := by
  unfold get_tile
  rw [if_neg (not_le.mpr h)]

theorem firstContaining_cons (P : Dmr5gParser) (T : Pt → Pt) (q : Pt)
    (a : ℕ) (rest : List ℕ) (h : a < P.n) :
    firstContaining P T q (a :: rest) =
      if contains_of P T q a then Except.ok a else firstContaining P T q rest := by
  rw [firstContaining, get_tile_of_lt P a h]
  rfl

theorem firstContaining_all_false (P : Dmr5gParser) (T : Pt → Pt) (q : Pt)
    (l : List ℕ) (hval : ∀ id ∈ l, id < P.n)
    (hc : ∀ id ∈ l, contains_of P T q id = false) :
    firstContaining P T q l = Except.error DmrError.noTileContains := by
  induction l with
  | nil => rfl
  | cons a l ih =>
    rw [firstContaining_cons P T q a l (hval a (List.mem_cons_self a l)),
      if_neg (by simp [hc a (List.mem_cons_self a l)])]
    exact ih (fun id h => hval id (List.mem_cons_of_mem a h))
      (fun id h => hc id (List.mem_cons_of_mem a h))

theorem firstContaining_first (P : Dmr5gParser) (T : Pt → Pt) (q : Pt)
    (l₁ : List ℕ) (id : ℕ) (l₂ : List ℕ)
    (hval : ∀ j ∈ l₁, j < P.n) (hid : id < P.n)
    (h₁ : ∀ j ∈ l₁, contains_of P T q j = false)
    (h₂ : contains_of P T q id = true) :
    firstContaining P T q (l₁ ++ id :: l₂) = Except.ok id := by
  induction l₁ with
  | nil =>
    rw [List.nil_append, firstContaining_cons P T q id l₂ hid, if_pos h₂]
  | cons a l ih =>
    rw [List.cons_append,
      firstContaining_cons P T q a (l ++ id :: l₂) (hval a (List.mem_cons_self a l)),
      if_neg (by simp [h₁ a (List.mem_cons_self a l)])]
    exact ih (fun j h => hval j (List.mem_cons_of_mem a h))
      (fun j h => h₁ j (List.mem_cons_of_mem a h))

theorem get_tile_id_nil (P : Dmr5gParser) (T : Pt → Pt) (point : Pt) :
    get_tile_id P T [] point = Except.error DmrError.noTileFound := rfl

theorem get_tile_id_single (P : Dmr5gParser) (T : Pt → Pt) (a : ℕ) (point : Pt)
    (h : a < P.n) :
    get_tile_id P T [a] point =
      if contains_of P T (T (point.2, point.1)) a then Except.ok a
      else Except.error DmrError.singleTileNotContaining := by
  rw [get_tile_id, get_tile_of_lt P a h]
  rfl

theorem get_tile_id_multi (P : Dmr5gParser) (T : Pt → Pt) (a b : ℕ) (l : List ℕ)
    (point : Pt) :
    get_tile_id P T (a :: b :: l) point =
      firstContaining P T (T (point.2, point.1)) (a :: b :: l) := rfl

/-- C1: point resolution.  With the candidate ids delivered by the index
query: zero candidates fail with the no-tile-found error; one candidate
returns its id iff its normalized footprint contains the transformed
point and fails with the point-outside-selected-tile error otherwise;
multiple candidates are tested in order, the first containing id is
returned, and only when none contains the point does the call fail with
the no-candidate-contains error. -/
theorem get_tile_id_cases (P : Dmr5gParser) (T : Pt → Pt) (ids : List ℕ) (point : Pt)
    (hval : ∀ id ∈ ids, id < P.n) :
    (ids = [] → get_tile_id P T ids point = Except.error DmrError.noTileFound) ∧
    (∀ id, ids = [id] →
      (contains_of P T (T (point.2, point.1)) id = true →
        get_tile_id P T ids point = Except.ok id) ∧
      (contains_of P T (T (point.2, point.1)) id = false →
        get_tile_id P T ids point = Except.error DmrError.singleTileNotContaining)) ∧
    (2 ≤ ids.length →
      ((∀ id ∈ ids, contains_of P T (T (point.2, point.1)) id = false) →
        get_tile_id P T ids point = Except.error DmrError.noTileContains) ∧
      (∀ l₁ id l₂, ids = l₁ ++ id :: l₂ →
        (∀ j ∈ l₁, contains_of P T (T (point.2, point.1)) j = false) →
        contains_of P T (T (point.2, point.1)) id = true →
        get_tile_id P T ids point = Except.ok id)) := by
  refine ⟨?_, ?_, ?_⟩
  · intro h
    subst h
    rfl
  · intro id h
    subst h
    have hid : id < P.n := hval id (List.mem_cons_self id [])
    constructor
    · intro hc
      rw [get_tile_id_single P T id point hid, if_pos hc]
    · intro hc
      rw [get_tile_id_single P T id point hid, if_neg (by simp [hc])]
  · intro hlen
    constructor
    · intro hc
      obtain ⟨a, b, l, rfl⟩ : ∃ a b l, ids = a :: b :: l := by
        match ids, hlen with
        | a :: b :: l, _ => exact ⟨a, b, l, rfl⟩
      rw [get_tile_id_multi]
      exact firstContaining_all_false P T _ _ hval hc
    · intro l₁ id l₂ heq h₁ h₂
      subst heq
      have hab : ∃ a b l, l₁ ++ id :: l₂ = a :: b :: l := by
        cases l₁ with
        | nil =>
          cases l₂ with
          | nil => simp at hlen
          | cons c l => exact ⟨id, c, l, rfl⟩
        | cons a l =>
          cases l with
          | nil => exact ⟨a, id, l₂, by simp⟩
          | cons b t => exact ⟨a, b, t ++ id :: l₂, by simp⟩
      obtain ⟨a, b, l, hab⟩ := hab
      rw [hab, get_tile_id_multi, ← hab]
      exact firstContaining_first P T _ l₁ id l₂
        (fun j h => hval j (List.mem_append_left _ h))
        (hval id (List.mem_append_right _ (List.mem_cons_self id l₂)))
        h₁ h₂

/-- The bottom-left 2500 × 2000 grid tile as a closed planar ring. -/
def ringBL : Poly := [(0, 0), (2500, 0), (2500, 2000), (0, 2000), (0, 0)]

/-- The tile directly to the right of `ringBL`, sharing the edge x = 2500. -/
def ringBR : Poly := [(2500, 0), (5000, 0), (5000, 2000), (2500, 2000), (2500, 0)]

theorem transformPoly_id (t : Poly) : transformPoly (fun p => p) t = t := by
  simp [transformPoly]

theorem ringBL_fixed : tile_sjtsk_fixed (fun p => p) ringBL = ringBL := by
  rw [tile_sjtsk_fixed, transformPoly_id]
  apply fix_tile_coords_of_grid
  rintro p hp
  simp only [ringBL, List.mem_cons, List.not_mem_nil, or_false] at hp
  rcases hp with h | h | h | h | h <;> subst h
  · exact ⟨⟨0, by norm_num⟩, ⟨0, by norm_num⟩⟩
  · exact ⟨⟨1, by norm_num⟩, ⟨0, by norm_num⟩⟩
  · exact ⟨⟨1, by norm_num⟩, ⟨1, by norm_num⟩⟩
  · exact ⟨⟨0, by norm_num⟩, ⟨1, by norm_num⟩⟩
  · exact ⟨⟨0, by norm_num⟩, ⟨0, by norm_num⟩⟩

theorem ringBR_fixed : tile_sjtsk_fixed (fun p => p) ringBR = ringBR := by
  rw [tile_sjtsk_fixed, transformPoly_id]
  apply fix_tile_coords_of_grid
  rintro p hp
  simp only [ringBR, List.mem_cons, List.not_mem_nil, or_false] at hp
  rcases hp with h | h | h | h | h <;> subst h
  · exact ⟨⟨1, by norm_num⟩, ⟨0, by norm_num⟩⟩
  · exact ⟨⟨2, by norm_num⟩, ⟨0, by norm_num⟩⟩
  · exact ⟨⟨2, by norm_num⟩, ⟨1, by norm_num⟩⟩
  · exact ⟨⟨1, by norm_num⟩, ⟨1, by norm_num⟩⟩
  · exact ⟨⟨1, by norm_num⟩, ⟨0, by norm_num⟩⟩

theorem contains_BL_interior :
    contains_of ⟨1, [ringBL]⟩ (fun p => p) (1250, 1000) 0 = true := by
  have h : tile_sjtsk_fixed (fun p => p)
      ((⟨1, [ringBL]⟩ : Dmr5gParser).tile_polygons.getD 0 []) = ringBL := ringBL_fixed
  rw [contains_of, h]
  with_unfolding_all decide

/-- Witness for `get_tile_id_cases`: a one-candidate catalog whose tile
contains the interior query point resolves to that candidate. -/
theorem get_tile_id_cases_witness :
    get_tile_id ⟨1, [ringBL]⟩ (fun p => p) [0] (1000, 1250) = Except.ok 0 :=
  ((get_tile_id_cases ⟨1, [ringBL]⟩ (fun p => p) [0] (1000, 1250)
    (by
      intro id h
      simp only [List.mem_cons, List.not_mem_nil, or_false] at h
      subst h
      decide)).2.1 0 rfl).1 contains_BL_interior

theorem containsPoint_false_of_boundary (poly : Poly) (q : Pt)
    (h : onBoundary poly q = true) : containsPoint poly q = false := by
  simp [containsPoint, h]

theorem onB_BL : onBoundary ringBL (2500, 1000) = true := by
  with_unfolding_all decide

theorem onB_BR : onBoundary ringBR (2500, 1000) = true := by
  with_unfolding_all decide

/-- C2 counterexample: two adjacent tiles whose normalized footprints share
the boundary x = 2500, and the query point (lon 1000, lat 2500) whose
planar image (2500, 1000) lies exactly on that shared edge.  `get_tile_id`
does not return either tile's id: shapely containment excludes the
boundary, so the call fails with the no-candidate-contains error. -/
theorem get_tile_id_boundary_cx :
    tile_sjtsk_fixed (fun p => p) ringBL = ringBL ∧
    tile_sjtsk_fixed (fun p => p) ringBR = ringBR ∧
    onBoundary ringBL (2500, 1000) = true ∧
    onBoundary ringBR (2500, 1000) = true ∧
    get_tile_id ⟨2, [ringBL, ringBR]⟩ (fun p => p) [0, 1] (1000, 2500) =
      Except.error DmrError.noTileContains := by
  refine ⟨ringBL_fixed, ringBR_fixed, onB_BL, onB_BR, ?_⟩
  rw [get_tile_id_multi]
  apply firstContaining_all_false
  · intro id h
    simp only [List.mem_cons, List.not_mem_nil, or_false] at h
    rcases h with rfl | rfl <;> decide
  · intro id h
    simp only [List.mem_cons, List.not_mem_nil, or_false] at h
    rcases h with rfl | rfl
    · have e : tile_sjtsk_fixed (fun p => p)
          ((⟨2, [ringBL, ringBR]⟩ : Dmr5gParser).tile_polygons.getD 0 []) = ringBL :=
        ringBL_fixed
      rw [contains_of, e]
      exact containsPoint_false_of_boundary _ _ onB_BL
    · have e : tile_sjtsk_fixed (fun p => p)
          ((⟨2, [ringBL, ringBR]⟩ : Dmr5gParser).tile_polygons.getD 1 []) = ringBR :=
        ringBR_fixed
      rw [contains_of, e]
      exact containsPoint_false_of_boundary _ _ onB_BR

/-- C2 amended: when the transformed query point lies exactly on the
boundary of every candidate's normalized footprint (in particular on a
shared edge of two adjacent tiles), `get_tile_id` never returns a tile id:
it fails with a PointOutOfTile error, whichever of its three branches
runs, because shapely containment is interior-only.  (The call is a pure
function of its inputs, so the failure is deterministic across repeated
calls.) -/
theorem get_tile_id_boundary_error (P : Dmr5gParser) (T : Pt → Pt)
    (ids : List ℕ) (point : Pt)
    (hval : ∀ id ∈ ids, id < P.n)
    (hb : ∀ id ∈ ids,
      onBoundary (tile_sjtsk_fixed T (P.tile_polygons.getD id []))
        (T (point.2, point.1)) = true) :
    ∃ e, get_tile_id P T ids point = Except.error e := by
  have hc : ∀ id ∈ ids, contains_of P T (T (point.2, point.1)) id = false :=
    fun id h => containsPoint_false_of_boundary _ _ (hb id h)
  match ids, hval, hb, hc with
  | [], _, _, _ => exact ⟨DmrError.noTileFound, rfl⟩
  | [a], hval, hb, hc =>
    refine ⟨DmrError.singleTileNotContaining, ?_⟩
    rw [get_tile_id_single P T a point (hval a (List.mem_cons_self a []))]
    rw [if_neg (by simp [hc a (List.mem_cons_self a [])])]
  | a :: b :: l, hval, hb, hc =>
    refine ⟨DmrError.noTileContains, ?_⟩
    rw [get_tile_id_multi]
    exact firstContaining_all_false P T _ _ hval hc

/-- Witness for `get_tile_id_boundary_error` at the concrete two-tile
catalog and the boundary point. -/
theorem get_tile_id_boundary_error_witness :
    ∃ e, get_tile_id ⟨2, [ringBL, ringBR]⟩ (fun p => p) [0, 1] (1000, 2500) =
      Except.error e :=
  get_tile_id_boundary_error ⟨2, [ringBL, ringBR]⟩ (fun p => p) [0, 1] (1000, 2500)
    (by
      intro id h
      simp only [List.mem_cons, List.not_mem_nil, or_false] at h
      rcases h with rfl | rfl <;> decide)
    (by
      intro id h
      simp only [List.mem_cons, List.not_mem_nil, or_false] at h
      rcases h with rfl | rfl
      · have e : tile_sjtsk_fixed (fun p => p)
            ((⟨2, [ringBL, ringBR]⟩ : Dmr5gParser).tile_polygons.getD 0 []) = ringBL :=
          ringBL_fixed
        rw [e]
        exact onB_BL
      · have e : tile_sjtsk_fixed (fun p => p)
            ((⟨2, [ringBL, ringBR]⟩ : Dmr5gParser).tile_polygons.getD 1 []) = ringBR :=
          ringBR_fixed
        rw [e]
        exact onB_BR)

/-- C9: footprint lookup by ordinal.  `get_tile` fails with the IndexError
iff the ordinal reaches the catalog size, and returns the id-th reported
footprint unchanged for every in-range ordinal. -/
theorem get_tile_spec (P : Dmr5gParser) (hlen : P.tile_polygons.length = P.n)
    (id : ℕ) :
    ((∃ e, get_tile P id = Except.error e) ↔ P.n ≤ id) ∧
    ∀ h : id < P.n, get_tile P id = Except.ok (P.tile_polygons.get ⟨id, hlen.symm ▸ h⟩) := by
  constructor
  · constructor
    · rintro ⟨e, he⟩
      by_contra hlt
      rw [get_tile, if_neg hlt] at he
      exact Except.noConfusion he
    · intro hle
      exact ⟨DmrError.indexError, by rw [get_tile, if_pos hle]⟩
  · intro h
    rw [get_tile, if_neg (not_le.mpr h)]
    congr 1
    rw [List.getD_eq_getElem _ _ (hlen.symm ▸ h)]
    simp [List.get_eq_getElem]

/-- Witness for `get_tile_spec`: a one-entry catalog returns its only
footprint at ordinal 0. -/
theorem get_tile_spec_witness :
    get_tile ⟨1, [ringBL]⟩ 0 = Except.ok ringBL :=
  (get_tile_spec ⟨1, [ringBL]⟩ rfl 0).2 (by decide)

/-- One parsed catalog entry, as read by the per-entry lookups: the tile's
own XML locator (the atom id element) and its updated element. -/
structure CatalogEntry where
  url : String
  updated : String

/-- The `for i, entry in enumerate(...): if i == id: return ...` loop shared
by `get_tile_xml` (dmr5g.py lines 319-323) and `get_tile_update_date`
(lines 334-338): walk the entries and return the id-th; when the loop
exhausts the entries the Python function falls through and returns None. -/
def find_entry : ℕ → List CatalogEntry → Option CatalogEntry
  | _, [] => none
  | 0, e :: _ => some e
  | n + 1, _ :: rest => find_entry n rest

/-- `Dmr5gParser.get_tile_xml` (dmr5g.py lines 319-323). -/
def get_tile_xml (entries : List CatalogEntry) (id : ℕ) : Option String :=
  (find_entry id entries).map CatalogEntry.url

/-- `Dmr5gParser.get_tile_update_date` (dmr5g.py lines 334-338). -/
def get_tile_update_date (entries : List CatalogEntry) (id : ℕ) : Option String :=
  (find_entry id entries).map CatalogEntry.updated

theorem find_entry_none (entries : List CatalogEntry) (id : ℕ)
    (h : entries.length ≤ id) : find_entry id entries = none := by
  induction entries generalizing id with
  | nil => cases id <;> rfl
  | cons e rest ih =>
    cases id with
    | zero => simp at h
    | succ n => exact ih n (by simpa using h)

/-- C10: for every ordinal at or beyond the number of catalog entries,
`get_tile_xml` and `get_tile_update_date` return None (the loop falls
through); being total Option-valued functions they never raise a typed
out-of-range error, so callers such as `get_tile_code` and `download_tile`
receive None for out-of-range ordinals. -/
theorem get_tile_xml_out_of_range (entries : List CatalogEntry) (id : ℕ)
    (h : entries.length ≤ id) :
    get_tile_xml entries id = none ∧ get_tile_update_date entries id = none := by
  rw [get_tile_xml, get_tile_update_date, find_entry_none entries id h]
  exact ⟨rfl, rfl⟩

/-- Witness for `get_tile_xml_out_of_range` on a one-entry catalog at
ordinal 1. -/
theorem get_tile_xml_out_of_range_witness :
    get_tile_xml [⟨"u", "d"⟩] 1 = none ∧
    get_tile_update_date [⟨"u", "d"⟩] 1 = none :=
  get_tile_xml_out_of_range [⟨"u", "d"⟩] 1 (by decide)

/-- The query circle of `get_tile_ids` (dmr5g.py lines 66-70 and 281):
planar center coordinates and radius. -/
structure Circle where
  x : ℚ
  y : ℚ
  r : ℚ

/-- The rectangle the `Rectangle` class stores (dmr5g.py lines 72-81):
center, width and height. -/
structure Rectangle where
  x : ℚ
  y : ℚ
  w : ℚ
  h : ℚ

/-- The `Rectangle` constructor (dmr5g.py lines 73-81) applied to the
coordinate arrays `(xs, ys)` of a ring: `l = xs[0]`, `b = ys[0]`,
`r = xs[1]`, `t = ys[2]` — the first two x coordinates and the first and
third y coordinates, not coordinate minima and maxima.  The rings it is
applied to have five vertices, so the accesses are in range; the defaults
of `getD` are never read there. -/
def mkRectangle (xs ys : List ℚ) : Rectangle :=
  let l := xs.getD 0 0
  let b := ys.getD 0 0
  let r := xs.getD 1 0
  let t := ys.getD 2 0
  { x := (l + r) / 2, y := (b + t) / 2, w := r - l, h := t - b }

/-- Modelled from the spec: the axis-aligned bounding rectangle of a
ring's coordinate arrays, from the coordinate minima and maxima, for
comparison with the rectangle the code actually builds. -/
def listMin : List ℚ → ℚ
  | [] => 0
  | x :: xs => xs.foldl min x

/-- Maximum of a coordinate array (see `listMin`). -/
def listMax : List ℚ → ℚ
  | [] => 0
  | x :: xs => xs.foldl max x

/-- Modelled from the spec: see `listMin`. -/
def aabbRectangle (xs ys : List ℚ) : Rectangle :=
  { x := (listMin xs + listMax xs) / 2
    y := (listMin ys + listMax ys) / 2
    w := listMax xs - listMin xs
    h := listMax ys - listMin ys }

/-- `Dmr5gParser.c_r_intersects` (dmr5g.py lines 247-264): reject when the
center's axis distance exceeds half-extent plus radius on either axis,
accept when within half-width or half-height, otherwise accept iff the
squared corner distance is within radius squared. -/
def c_r_intersects (circle : Circle) (rect : Rectangle) : Bool :=
  let circleDistanceX := |circle.x - rect.x|
  let circleDistanceY := |circle.y - rect.y|
  if circleDistanceX > rect.w / 2 + circle.r then false
  else if circleDistanceY > rect.h / 2 + circle.r then false
  else if circleDistanceX ≤ rect.w / 2 then true
  else if circleDistanceY ≤ rect.h / 2 then true
  else decide ((circleDistanceX - rect.w / 2) ^ 2 + (circleDistanceY - rect.h / 2) ^ 2 ≤
    circle.r ^ 2)

/-- The candidate count `get_tile_ids` requests from the rtree nearest
query (dmr5g.py line 271): `int((2+2*floor((1.1+floor(radius/1000))/2))**2)`.
The float literal 1.1 is modelled as the exact rational 11/10: the double
closest to 1.1 differs from it by less than 1e-16, and `(1.1+m)/2` is never
an integer for integer `m`, so the deviation cannot move either floor. -/
def necessary_num_near_tiles (radius : ℚ) : ℤ :=
  (2 + 2 * ⌊(11 / 10 + (⌊radius / 1000⌋ : ℚ)) / 2⌋) ^ 2

/-- The identical candidate-count expression of `get_tile_ids_rect`
(dmr5g.py line 297), applied there to the half-diagonal radius. -/
def necessary_num_near_tiles_rect (radius : ℚ) : ℤ :=
  (2 + 2 * ⌊(11 / 10 + (⌊radius / 1000⌋ : ℚ)) / 2⌋) ^ 2

/-- `Dmr5gParser.get_tile_ids` (dmr5g.py lines 267-284): for each candidate
id from the nearest query (passed as `tile_ids`), look the tile up, build
its normalized planar footprint, and keep the id iff the query circle
intersects the rectangle built from the footprint's coordinate arrays. -/
def get_tile_ids (P : Dmr5gParser) (T : Pt → Pt) (tile_ids : List ℕ)
    (point_sjtsk : Pt) (radius : ℚ) : Except DmrError (List ℕ) :=
  match tile_ids with
  | [] => Except.ok []
  | id :: rest =>
    match get_tile P id with
    | Except.error e => Except.error e
    | Except.ok tile =>
      let fp := tile_sjtsk_fixed T tile
      match get_tile_ids P T rest point_sjtsk radius with
      | Except.error e => Except.error e
      | Except.ok restIds =>
        if c_r_intersects ⟨point_sjtsk.1, point_sjtsk.2, radius⟩
            (mkRectangle (fp.map Prod.fst) (fp.map Prod.snd)) then
          Except.ok (id :: restIds)
        else Except.ok restIds

/-- The rectangle `get_tile_ids` tests for candidate `id`. -/
def tileRect (P : Dmr5gParser) (T : Pt → Pt) (id : ℕ) : Rectangle :=
  mkRectangle ((tile_sjtsk_fixed T (P.tile_polygons.getD id [])).map Prod.fst)
    ((tile_sjtsk_fixed T (P.tile_polygons.getD id [])).map Prod.snd)

theorem get_tile_ids_cons (P : Dmr5gParser) (T : Pt → Pt) (a : ℕ)
    (rest : List ℕ) (q : Pt) (r : ℚ) (h : a < P.n) :
    get_tile_ids P T (a :: rest) q r =
      match get_tile_ids P T rest q r with
      | Except.error e => Except.error e
      | Except.ok restIds =>
        if c_r_intersects ⟨q.1, q.2, r⟩ (tileRect P T a) then Except.ok (a :: restIds)
        else Except.ok restIds := by
  rw [get_tile_ids, get_tile_of_lt P a h]
  rfl

/-- C5 amended: `get_tile_ids` returns exactly those candidate ids passing
the stated circle–rectangle test against the rectangle derived from the
normalized footprint's first two x coordinates and first and third y
coordinates (`tileRect`); an empty result is the ordinary `Except.ok []`
value, never an error.  That rectangle coincides with the axis-aligned
bounding rectangle only when the footprint ring is listed in canonical
bottom-left, bottom-right, top-right order. -/
theorem get_tile_ids_filter (P : Dmr5gParser) (T : Pt → Pt)
    (tile_ids : List ℕ) (q : Pt) (r : ℚ)
    (hval : ∀ id ∈ tile_ids, id < P.n) :
    get_tile_ids P T tile_ids q r =
      Except.ok (tile_ids.filter fun id =>
        c_r_intersects ⟨q.1, q.2, r⟩ (tileRect P T id)) := by
  induction tile_ids with
  | nil => rfl
  | cons a rest ih =>
    rw [get_tile_ids_cons P T a rest q r (hval a (List.mem_cons_self a rest)),
      ih (fun id h => hval id (List.mem_cons_of_mem a h))]
    rcases hc : c_r_intersects ⟨q.1, q.2, r⟩ (tileRect P T a) with _ | _
    · simp [List.filter_cons, hc]
    · simp [List.filter_cons, hc]

/-- The bottom-left grid tile as a clockwise ring starting at its
bottom-right vertex: a valid tile footprint whose vertex order breaks the
`Rectangle` constructor's positional assumptions. -/
def ringCW : Poly := [(2500, 0), (0, 0), (0, 2000), (2500, 2000), (2500, 0)]

theorem ringCW_fixed : tile_sjtsk_fixed (fun p => p) ringCW = ringCW := by
  rw [tile_sjtsk_fixed, transformPoly_id]
  apply fix_tile_coords_of_grid
  rintro p hp
  simp only [ringCW, List.mem_cons, List.not_mem_nil, or_false] at hp
  rcases hp with h | h | h | h | h <;> subst h
  · exact ⟨⟨1, by norm_num⟩, ⟨0, by norm_num⟩⟩
  · exact ⟨⟨0, by norm_num⟩, ⟨0, by norm_num⟩⟩
  · exact ⟨⟨0, by norm_num⟩, ⟨1, by norm_num⟩⟩
  · exact ⟨⟨1, by norm_num⟩, ⟨1, by norm_num⟩⟩
  · exact ⟨⟨1, by norm_num⟩, ⟨0, by norm_num⟩⟩

theorem tileRect_CW :
    tileRect ⟨1, [ringCW]⟩ (fun p => p) 0 = ⟨1250, 1000, -2500, 2000⟩ := by
  have e : tile_sjtsk_fixed (fun p => p)
      ((⟨1, [ringCW]⟩ : Dmr5gParser).tile_polygons.getD 0 []) = ringCW := ringCW_fixed
  rw [tileRect, e]
  simp only [ringCW, List.map_cons, List.map_nil, mkRectangle]
  norm_num

theorem crCW_code_false :
    c_r_intersects ⟨1250, 1000, 0⟩ ⟨1250, 1000, -2500, 2000⟩ = false := by
  norm_num [c_r_intersects]

theorem crCW_aabb_true :
    c_r_intersects ⟨1250, 1000, 0⟩
      (aabbRectangle (ringCW.map Prod.fst) (ringCW.map Prod.snd)) = true := by
  have e : aabbRectangle (ringCW.map Prod.fst) (ringCW.map Prod.snd) =
      ⟨1250, 1000, 2500, 2000⟩ := by
    simp only [ringCW, List.map_cons, List.map_nil, aabbRectangle, listMin, listMax,
      List.foldl]
    norm_num
  rw [e]
  norm_num [c_r_intersects]

/-- C5 counterexample: a grid tile reported as a clockwise ring starting at
its bottom-right vertex.  The rectangle the code builds from it has center
(1250, 1000) but signed width −2500; at the tile's center with radius 0
`get_tile_ids` returns the empty list, although the footprint's actual
axis-aligned bounding rectangle does intersect the circle under the stated
test — so the result is not the set of candidates whose bounding rectangle
intersects the circle. -/
theorem get_tile_ids_not_aabb_cx :
    tile_sjtsk_fixed (fun p => p) ringCW = ringCW ∧
    get_tile_ids ⟨1, [ringCW]⟩ (fun p => p) [0] (1250, 1000) 0 = Except.ok [] ∧
    c_r_intersects ⟨1250, 1000, 0⟩
      (aabbRectangle (ringCW.map Prod.fst) (ringCW.map Prod.snd)) = true := by
  refine ⟨ringCW_fixed, ?_, crCW_aabb_true⟩
  rw [get_tile_ids_cons ⟨1, [ringCW]⟩ (fun p => p) 0 [] (1250, 1000) 0 (by decide)]
  have h0 : get_tile_ids ⟨1, [ringCW]⟩ (fun p => p) [] (1250, 1000) 0 =
      Except.ok [] := rfl
  rw [h0, tileRect_CW]
  simp [crCW_code_false]

/-- Witness for `get_tile_ids_filter` at the concrete one-candidate
catalog. -/
theorem get_tile_ids_filter_witness :
    get_tile_ids ⟨1, [ringCW]⟩ (fun p => p) [0] (1250, 1000) 0 =
      Except.ok (([0] : List ℕ).filter fun id =>
        c_r_intersects ⟨1250, 1000, 0⟩ (tileRect ⟨1, [ringCW]⟩ (fun p => p) id)) :=
  get_tile_ids_filter ⟨1, [ringCW]⟩ (fun p => p) [0] (1250, 1000) 0
    (by
      intro id h
      simp only [List.mem_cons, List.not_mem_nil, or_false] at h
      subst h
      decide)

theorem nnnt_eval (r : ℚ) (k j : ℤ) (hk : ⌊r / 1000⌋ = k)
    (hj : ⌊(11 / 10 + (k : ℚ)) / 2⌋ = j) :
    necessary_num_near_tiles r = (2 + 2 * j) ^ 2 := by
  rw [necessary_num_near_tiles, hk, hj]

/-- C6: the candidate count requested from the footprint index is
`(2 + 2·⌊(1.1 + ⌊r/1000⌋)/2⌋)²` in both the radius and the rectangle
resolver; it is 4 at radius 0 and radius 999, steps to 16 at radius 1000,
stays 16 through 2999, reaches 36 at 3000, and changes only at
whole-kilometer marks (it depends on the radius only through
`⌊r/1000⌋`). -/
theorem necessary_num_near_tiles_spec (r : ℚ) (_hr : 0 ≤ r) :
    necessary_num_near_tiles r =
      (2 + 2 * ⌊(11 / 10 + (⌊r / 1000⌋ : ℚ)) / 2⌋) ^ 2 ∧
    necessary_num_near_tiles_rect r = necessary_num_near_tiles r ∧
    necessary_num_near_tiles 0 = 4 ∧
    necessary_num_near_tiles 999 = 4 ∧
    necessary_num_near_tiles 1000 = 16 ∧
    necessary_num_near_tiles 2999 = 16 ∧
    necessary_num_near_tiles 3000 = 36 ∧
    necessary_num_near_tiles r = necessary_num_near_tiles (1000 * ⌊r / 1000⌋) := by
  refine ⟨rfl, rfl, ?_, ?_, ?_, ?_, ?_, ?_⟩
  · rw [nnnt_eval 0 0 0 (by norm_num) (by (rw [Int.floor_eq_iff]; norm_num))]
    norm_num
  · rw [nnnt_eval 999 0 0 (by (rw [Int.floor_eq_iff]; norm_num))
      (by (rw [Int.floor_eq_iff]; norm_num))]
    norm_num
  · rw [nnnt_eval 1000 1 1 (by (rw [Int.floor_eq_iff]; norm_num))
      (by (rw [Int.floor_eq_iff]; norm_num))]
    norm_num
  · rw [nnnt_eval 2999 2 1 (by (rw [Int.floor_eq_iff]; norm_num))
      (by (rw [Int.floor_eq_iff]; norm_num))]
    norm_num
  · rw [nnnt_eval 3000 3 2 (by (rw [Int.floor_eq_iff]; norm_num))
      (by (rw [Int.floor_eq_iff]; norm_num))]
    norm_num
  · have h : (⌊(1000 * (⌊r / 1000⌋ : ℚ)) / 1000⌋ : ℤ) = ⌊r / 1000⌋ := by
      rw [mul_comm, mul_div_assoc]
      norm_num
    rw [necessary_num_near_tiles, necessary_num_near_tiles, h]

/-- Witness for `necessary_num_near_tiles_spec` at radius 5. -/
theorem necessary_num_near_tiles_spec_witness :
    necessary_num_near_tiles 5 =
      (2 + 2 * ⌊(11 / 10 + (⌊(5 : ℚ) / 1000⌋ : ℚ)) / 2⌋) ^ 2 ∧
    necessary_num_near_tiles_rect 5 = necessary_num_near_tiles 5 ∧
    necessary_num_near_tiles 0 = 4 ∧
    necessary_num_near_tiles 999 = 4 ∧
    necessary_num_near_tiles 1000 = 16 ∧
    necessary_num_near_tiles 2999 = 16 ∧
    necessary_num_near_tiles 3000 = 36 ∧
    necessary_num_near_tiles 5 = necessary_num_near_tiles (1000 * ⌊(5 : ℚ) / 1000⌋) :=
  necessary_num_near_tiles_spec 5 (by norm_num)

/-- A geodetic bounding box as `get_tiles` inserts it into the rtree
index: (left, bottom, right, top). -/
structure BBox where
  left : ℚ
  bottom : ℚ
  right : ℚ
  top : ℚ

/-- The per-entry polygon parsing of `get_tiles` (dmr5g.py lines 170-176):
the entry's flat float list split into consecutive (lat, lon) pairs. -/
def entryPairs : List ℚ → Poly
  | a :: b :: rest => (a, b) :: entryPairs rest
  | _ => []

/-- The bounding box `get_tiles` inserts for an entry (dmr5g.py line 180):
`(left, bottom, right, top) = (fl[1], fl[0], fl[3], fl[4])` — the first
vertex's lon and lat, the second vertex's lon and the third vertex's lat,
not coordinate minima and maxima.  Real entries have ten floats, so the
accesses are in range and the `getD` defaults are never read. -/
def entryBBox (fl : List ℚ) : BBox :=
  ⟨fl.getD 1 0, fl.getD 0 0, fl.getD 3 0, fl.getD 4 0⟩

/-- The error `idx.insert` of the external rtree library raises when a
box's minimum exceeds the corresponding maximum ("Coordinates must not
have minimums more than maximums"). -/
inductive RTreeError
  | invalidCoordinates

/-- Modelled from the external rtree library: `idx.insert` accepts an
interleaved box `(left, bottom, right, top)` only when `left ≤ right` and
`bottom ≤ top`; otherwise it raises `RTreeError`. -/
def validBox (b : BBox) : Bool :=
  decide (b.left ≤ b.right) && decide (b.bottom ≤ b.top)

/-- The insertion loop of `get_tiles` (dmr5g.py lines 165-183) from entry
ordinal `i` on: insert each entry's box keyed by encounter order; an
invalid box makes the external `idx.insert` raise, aborting the loop. -/
def insertBoxes : ℕ → List (List ℚ) → Except RTreeError (List (ℕ × BBox))
  | _, [] => Except.ok []
  | i, fl :: rest =>
    if validBox (entryBBox fl) then
      match insertBoxes (i + 1) rest with
      | Except.error e => Except.error e
      | Except.ok tail => Except.ok ((i, entryBBox fl) :: tail)
    else Except.error RTreeError.invalidCoordinates

/-- `Dmr5gParser.get_tiles` (dmr5g.py lines 158-185): one index insertion
`(i, box_i)` per catalog entry, keyed by encounter order, plus the parsed
polygon list in the same order.  An rtree insertion failure propagates out
of `get_tiles` (and out of the constructor calling it), so nothing is
returned then. -/
def get_tiles (entries : List (List ℚ)) :
    Except RTreeError (List (ℕ × BBox) × List Poly) :=
  match insertBoxes 0 entries with
  | Except.error e => Except.error e
  | Except.ok idx => Except.ok (idx, entries.map entryPairs)

/-- A (lat, lon) vertex lies within a bounding box. -/
def inBBox (b : BBox) (v : Pt) : Prop :=
  b.left ≤ v.2 ∧ v.2 ≤ b.right ∧ b.bottom ≤ v.1 ∧ v.1 ≤ b.top

/-- A catalog entry whose footprint is the axis-aligned rectangle
[l, r] × [b, t] listed in the canonical order bottom-left, bottom-right,
top-right, top-left, closed, as (lat, lon) pairs. -/
def canonicalRectEntry (b l t r : ℚ) : List ℚ :=
  [b, l, b, r, t, r, t, l, b, l]

/-- The rectangle [0, 2500] × [0, 2000] reported counterclockwise starting
at its bottom-right vertex: bottom-right, top-right, top-left, bottom-left,
closed, as (lat, lon) pairs. -/
def entryCCW : List ℚ := [0, 2500, 2000, 2500, 2000, 0, 0, 0, 0, 2500]

/-- C7 counterexample: for the counterclockwise bottom-right-first entry,
the positionally read box is (2500, 0, 2500, 2000) — a valid box that the
rtree insert accepts, so the entry receives its index entry — yet the
reported vertex (0, 0) lies outside it: the stored bounding box does not
contain the full reported footprint for every footprint polygon the
catalog may report. -/
theorem get_tiles_bbox_cx :
    get_tiles [entryCCW] =
      Except.ok ([(0, ⟨2500, 0, 2500, 2000⟩)], [entryPairs entryCCW]) ∧
    ((0 : ℚ), (0 : ℚ)) ∈ entryPairs entryCCW ∧
    ¬ inBBox ⟨2500, 0, 2500, 2000⟩ (0, 0) := by
  refine ⟨rfl, ?_, ?_⟩
  · norm_num [entryPairs, entryCCW]
  · norm_num [inBBox]

theorem insertBoxes_ok (i : ℕ) (entries : List (List ℚ))
    (hv : ∀ fl ∈ entries, validBox (entryBBox fl) = true) :
    ∃ idx : List (ℕ × BBox), insertBoxes i entries = Except.ok idx ∧
      idx.length = entries.length ∧
      ∀ j : ℕ, j < entries.length →
        idx.getD j (0, ⟨0, 0, 0, 0⟩) = (i + j, entryBBox (entries.getD j [])) := by
  induction entries generalizing i with
  | nil =>
    exact ⟨[], rfl, rfl, fun j hj => absurd hj (Nat.not_lt_zero j)⟩
  | cons fl rest ih =>
    obtain ⟨tail, htail, hlen, hget⟩ :=
      ih (i + 1) (fun g hg => hv g (List.mem_cons_of_mem fl hg))
    refine ⟨(i, entryBBox fl) :: tail, ?_, by simp [hlen], ?_⟩
    · rw [insertBoxes, if_pos (hv fl (List.mem_cons_self fl rest)), htail]
    · intro j hj
      cases j with
      | zero => simp
      | succ jj =>
        rw [List.getD_cons_succ, List.getD_cons_succ,
          hget jj (by simpa using hj)]
        congr 1
        omega

theorem insertBoxes_error (i : ℕ) (entries : List (List ℚ))
    (h : ∃ fl ∈ entries, validBox (entryBBox fl) = false) :
    ∃ e, insertBoxes i entries = Except.error e := by
  induction entries generalizing i with
  | nil =>
    obtain ⟨fl, hmem, _⟩ := h
    exact absurd hmem (List.not_mem_nil fl)
  | cons g rest ih =>
    by_cases hg : validBox (entryBBox g) = true
    · obtain ⟨e, he⟩ : ∃ e, insertBoxes (i + 1) rest = Except.error e := by
        apply ih
        obtain ⟨fl, hmem, hfl⟩ := h
        rcases List.mem_cons.mp hmem with rfl | hmem2
        · exact absurd hg (by simp [hfl])
        · exact ⟨fl, hmem2, hfl⟩
      refine ⟨e, ?_⟩
      rw [insertBoxes, if_pos hg, he]
    · exact ⟨RTreeError.invalidCoordinates, by rw [insertBoxes, if_neg hg]⟩

/-- C7 amended: when every entry's positionally read box passes the rtree
insert validation (left ≤ right and bottom ≤ top), `get_tiles` succeeds
and each catalog entry receives exactly one bounding-box index entry,
keyed by its ordinal in encounter order; when any entry's box is inverted,
index construction raises RTreeError out of `get_tiles` instead.  The
stored box is read positionally from the first three vertices (left =
lon₁, bottom = lat₁, right = lon₂, top = lat₃); it is a valid box that
contains every vertex of the reported footprint whenever the footprint is
a canonical axis-aligned rectangle ring listed bottom-left, bottom-right,
top-right, top-left — not for every footprint polygon the catalog may
report. -/
theorem get_tiles_spec (entries : List (List ℚ))
    (hv : ∀ fl ∈ entries, validBox (entryBBox fl) = true) :
    (∃ idx : List (ℕ × BBox),
      get_tiles entries = Except.ok (idx, entries.map entryPairs) ∧
      idx.length = entries.length ∧
      ∀ i : ℕ, i < entries.length →
        idx.getD i (0, ⟨0, 0, 0, 0⟩) = (i, entryBBox (entries.getD i []))) ∧
    (∀ entries2 : List (List ℚ),
      (∃ fl ∈ entries2, validBox (entryBBox fl) = false) →
      ∃ e, get_tiles entries2 = Except.error e) ∧
    (∀ b l t r : ℚ, l ≤ r → b ≤ t →
      validBox (entryBBox (canonicalRectEntry b l t r)) = true ∧
      ∀ v ∈ entryPairs (canonicalRectEntry b l t r),
        inBBox (entryBBox (canonicalRectEntry b l t r)) v) := by
  refine ⟨?_, ?_, ?_⟩
  · obtain ⟨idx, hins, hlen, hget⟩ := insertBoxes_ok 0 entries hv
    refine ⟨idx, ?_, hlen, ?_⟩
    · rw [get_tiles, hins]
    · intro i hi
      simpa using hget i hi
  · intro entries2 h
    obtain ⟨e, he⟩ := insertBoxes_error 0 entries2 h
    exact ⟨e, by rw [get_tiles, he]⟩
  · intro b l t r hlr hbt
    have hbb : entryBBox (canonicalRectEntry b l t r) = ⟨l, b, r, t⟩ := rfl
    constructor
    · rw [hbb]
      simp only [validBox, Bool.and_eq_true, decide_eq_true_eq]
      exact ⟨hlr, hbt⟩
    · intro v hv2
      simp only [canonicalRectEntry, entryPairs, List.mem_cons, List.not_mem_nil,
        or_false] at hv2
      rw [hbb]
      rcases hv2 with h | h | h | h | h <;> subst h
      · exact ⟨le_refl l, hlr, le_refl b, hbt⟩
      · exact ⟨hlr, le_refl r, le_refl b, hbt⟩
      · exact ⟨hlr, le_refl r, hbt, le_refl t⟩
      · exact ⟨le_refl l, hlr, hbt, le_refl t⟩
      · exact ⟨le_refl l, hlr, le_refl b, hbt⟩

/-- Witness for `get_tiles_spec`: the one-entry catalog holding the
canonical rectangle [0, 2500] × [0, 2000] succeeds with exactly one index
entry whose box contains the top-right vertex, while the one-entry catalog
with a top-right-first (inverted-box) entry makes index construction
raise. -/
theorem get_tiles_spec_witness :
    (∃ idx : List (ℕ × BBox),
      get_tiles [canonicalRectEntry 0 0 2000 2500] =
        Except.ok (idx, ([canonicalRectEntry 0 0 2000 2500] :
          List (List ℚ)).map entryPairs) ∧
      idx.length = 1 ∧
      idx.getD 0 (0, ⟨0, 0, 0, 0⟩) =
        (0, entryBBox (canonicalRectEntry 0 0 2000 2500))) ∧
    (∃ e, get_tiles [[2000, 2500, 0, 2500, 0, 0, 2000, 0, 2000, 2500]] =
      Except.error e) ∧
    inBBox (entryBBox (canonicalRectEntry 0 0 2000 2500)) (2000, 2500) := by
  have hv : ∀ fl ∈ ([canonicalRectEntry 0 0 2000 2500] : List (List ℚ)),
      validBox (entryBBox fl) = true := by
    intro fl hfl
    simp only [List.mem_cons, List.not_mem_nil, or_false] at hfl
    subst hfl
    exact ((get_tiles_spec [] (by simp)).2.2 0 0 2000 2500 (by norm_num)
      (by norm_num)).1
  refine ⟨?_, ?_, ?_⟩
  · obtain ⟨idx, hok, hlen, hget⟩ := (get_tiles_spec _ hv).1
    exact ⟨idx, hok, by simpa using hlen, by simpa using hget 0 (by norm_num)⟩
  · refine (get_tiles_spec [] (by simp)).2.1 _
      ⟨[2000, 2500, 0, 2500, 0, 0, 2000, 0, 2000, 2500],
        List.mem_cons_self _ _, ?_⟩
    norm_num [validBox, entryBBox]
  · exact ((get_tiles_spec [] (by simp)).2.2 0 0 2000 2500 (by norm_num)
      (by norm_num)).2 (2000, 2500) (by norm_num [entryPairs, canonicalRectEntry])

/-- The uncaught failure a network call can raise out of `download_tile`. -/
inductive NetError
  | networkFailure

/-- The cache-directory state `download_tile` touches: the
`update_dates.json` manifest (tile code mapped to the catalog's updated
timestamp), the downloaded archives and the extracted data files, named
by tile code. -/
structure Cache where
  manifest : List (String × Option String)
  archives : List String
  files : List String

/-- Python dict assignment `d[k] = v` on an insertion-ordered dict:
replace in place or append at the end. -/
def setEntry : List (String × Option String) → String → Option String →
    List (String × Option String)
  | [], k, v => [(k, v)]
  | (k2, v2) :: rest, k, v =>
    if k2 = k then (k, v) :: rest else (k2, v2) :: setEntry rest k v

/-- Overwrite-or-create a file of the cache directory. -/
def addFile (files : List String) (f : String) : List String :=
  if f ∈ files then files else files ++ [f]

/-- The network-facing behaviour one `download_tile` call observes:
the outcome of the two-hop descriptor resolution (`get_tile_zip`,
dmr5g.py lines 325-332; `none` models any exception there, which the bare
except at line 344 catches) and whether the archive retrieval
(`urlretrieve`, line 352) succeeds. -/
structure DownloadEnv where
  zip_url : Option String
  urlretrieve_ok : Bool

/-- `Dmr5gParser.download_tile` (dmr5g.py lines 340-378).  The try block
wraps only `get_tile_zip`; a failure there is caught, a warning logged and
None returned.  `urlretrieve` runs outside the try block, so its failure
propagates as an exception (`Except.error`).  On success the archive is
written to the cache, the manifest entry for the tile code is set to the
catalog's update date, and the extracted file is renamed to
`{tile_code}.laz`, whose path is returned.  The tile code and update date
are pure reads of the parsed catalog, passed as arguments. -/
def download_tile (env : DownloadEnv) (tile_code : String)
    (update_date : Option String) (cache : Cache) :
    Except NetError (Option String × Cache) :=
  match env.zip_url with
  | none => Except.ok (none, cache)
  | some _ =>
    if env.urlretrieve_ok then
      Except.ok (some (tile_code ++ ".laz"),
        { manifest := setEntry cache.manifest tile_code update_date
          archives := addFile cache.archives (tile_code ++ ".zip")
          files := addFile cache.files (tile_code ++ ".laz") })
    else Except.error NetError.networkFailure

/-- C8 counterexample: descriptor resolution succeeds but the archive
retrieval fails; `download_tile` raises (an uncaught exception, modelled
as `Except.error`) instead of returning the explicit no-result None — so
not every network failure during `download_tile` yields None. -/
theorem download_tile_urlretrieve_cx :
    download_tile ⟨some "z", false⟩ "T1" (some "d") ⟨[], [], []⟩ =
      Except.error NetError.networkFailure := rfl

/-- C8 amended: a network failure during descriptor resolution
(`get_tile_zip`) is caught — `download_tile` returns the explicit
no-result None and leaves the cache state unchanged; a failure of the
archive retrieval (`urlretrieve`) is not caught and propagates as an
exception. -/
theorem download_tile_best_effort (env : DownloadEnv) (tile_code : String)
    (update_date : Option String) (cache : Cache) :
    (env.zip_url = none →
      download_tile env tile_code update_date cache = Except.ok (none, cache)) ∧
    (∀ z, env.zip_url = some z → env.urlretrieve_ok = false →
      download_tile env tile_code update_date cache =
        Except.error NetError.networkFailure) := by
  constructor
  · intro h
    rw [download_tile, h]
  · intro z hz hr
    rw [download_tile, hz, hr]
    rfl

/-- Witness for `download_tile_best_effort`: with no connectivity at the
descriptor step, the call returns None and the empty cache is untouched;
with connectivity there but a failing retrieval, it errors. -/
theorem download_tile_best_effort_witness :
    download_tile ⟨none, true⟩ "T1" (some "d") ⟨[], [], []⟩ =
      Except.ok (none, ⟨[], [], []⟩) ∧
    download_tile ⟨some "u", false⟩ "T2" none ⟨[], [], []⟩ =
      Except.error NetError.networkFailure :=
  ⟨(download_tile_best_effort ⟨none, true⟩ "T1" (some "d") ⟨[], [], []⟩).1 rfl,
   (download_tile_best_effort ⟨some "u", false⟩ "T2" none ⟨[], [], []⟩).2 "u" rfl rfl⟩

end Dmr5g
